import Mathlib

/-!
Shallow embedding of the spectraviewer spectrum-ingestion engine
(src/spectraviewer/spectra_plotter.py) and verification of its
specification claims.

Modelling conventions:
* Python strings are Lean `String`s; scanning operations (split, strip,
  count, startswith) are re-implemented structurally over `String.data`
  (`List Char`) so that everything evaluates in the kernel.
* Numeric file/header values are modelled as exact rationals `ℚ`; the code
  only ever adds, subtracts and multiplies them.  The value `10 ** x`
  computed for logarithmic sampling is represented symbolically by the
  `WaveVal.tenPow` constructor, keeping the argument exact.
* Python exceptions are an `Err` inductive threaded through `Except`.
  The source raises `ValueError` with distinct messages at the distinct
  sites; the constructors mirror those sites (the spec's error kinds).
* The filesystem, FITS files, votable documents and text files are an
  explicit `Env`/`FileContent` model; `astropy` parsing of a file whose
  bytes do not match the attempted format raises, modelled by
  `Err.typeMismatch`.
-/

deriving instance DecidableEq for Except

namespace SpectraViewer

/-! ## Python string primitives, re-implemented structurally -/

/-- `s.split(d)` for a one-character separator `d` (Python semantics:
`''.split(d) = ['']`, separators at the ends produce empty fields). -/
def splitOnChar (d : Char) : List Char → List (List Char)
  | [] => [[]]
  | c :: rest =>
    let r := splitOnChar d rest
    if c = d then [] :: r
    else
      match r with
      | [] => [[c]]
      | g :: gs => (c :: g) :: gs

/-- Python `str.strip()`: remove leading and trailing whitespace. -/
def pyStrip (l : List Char) : List Char :=
  ((l.dropWhile Char.isWhitespace).reverse.dropWhile Char.isWhitespace).reverse

/-- Association-list lookup with string keys; models both Python `dict`
lookups (`PLOTTER_MAPPING`, FITS/votable column access) and the abstract
filesystem. -/
def alookup {α : Type} : List (String × α) → String → Option α
  | [], _ => none
  | (k, v) :: t, s => if k = s then some v else alookup t s

/-! ## Errors (Python exceptions, with the spec's kinds) -/

/-- Exception kinds raised by the engine.  Each constructor corresponds to
one raise site (or library exception) in `spectra_plotter.py`. -/
inductive Err where
  /-- `ValueError('No supported spectrum file found')` (both raise sites). -/
  | emptyBatch
  /-- `ValueError('Unsupported location option: ...')`. -/
  | unknownLocation (loc : String)
  /-- `ValueError("'..' path characters are forbidden")`. -/
  | invalidPath
  /-- `ValueError('Spectrum file {name} in location {path} does not exist')`. -/
  | fileNotFound (name path : String)
  /-- `ValueError('No filename passed')` from `file_extension`. -/
  | invalidName
  /-- `UnknownExtensionException` (None or an unmapped suffix). -/
  | unknownExtension (ext : Option String)
  /-- I/O failure opening an already-resolved path. -/
  | ioError (path : String)
  /-- `KeyError` on a FITS header field. -/
  | missingHeader (key : String)
  /-- `KeyError` on a FITS table / votable column. -/
  | missingColumn (key : String)
  /-- `IndexError` (empty data where a first row was required). -/
  | indexError
  /-- library parse failure: file bytes do not match the attempted format
  (also covers header/data shape mismatches inside a FITS block). -/
  | typeMismatch
  /-- votable `get_first_table` on a document with no table. -/
  | noTable
  /-- Python `NameError`/`UnboundLocalError`: `_parse_spectrum_file` read
  `name`/`wave`/`flux` although no scanned block ever assigned them. -/
  | nameError
deriving DecidableEq

/-! ## Data model: wave values, series, curves, plot target -/

/-- One wavelength sample as computed by `FitsPlotter._extract_wave`:
either the exact value itself (linear sampling) or `10 ** x`
(logarithmic sampling), kept symbolic with its exact exponent. -/
inductive WaveVal where
  | val (x : ℚ)
  | tenPow (x : ℚ)
deriving DecidableEq

/-- A data series handed to `axes.plot`: plain numbers (FITS table
columns), reconstructed wavelengths, raw text fields (csv rows), or
array-valued votable columns. -/
inductive Series where
  | nums (vals : List ℚ)
  | waves (vals : List WaveVal)
  | strs (vals : List String)
  | arrays (rows : List (List ℚ))
deriving DecidableEq

/-- One curve added to the matplotlib axes: `x = none` means the y-series
is plotted against its own index. -/
structure Curve where
  x : Option Series
  y : Series
  label : String
deriving DecidableEq

/-- The plot target: the curves added so far and the running
`axes.spectra_count`. -/
structure Axes where
  curves : List Curve
  spectra_count : ℕ
deriving DecidableEq

/-! ## FITS model (`FitsPlotter`) -/

/-- The FITS header fields the decoder reads.  `crpix1` is read through
`int(...)` in the source, hence `ℤ`. -/
structure FitsHeader where
  object : Option String
  desig : Option String
  naxis : Option ℤ
  naxis2 : Option ℤ
  crpix1 : Option ℤ
  crval1 : Option ℚ
  cdelt1 : Option ℚ
  cd1_1 : Option ℚ
  dcFlag : Option ℚ
deriving DecidableEq

/-- The data payload of a header+data unit: a 2-D image (rows), a 1-D
array, or record data with named columns. -/
inductive HduData where
  | image (rows : List (List ℚ))
  | array1d (vals : List ℚ)
  | table (cols : List (String × List ℚ))
deriving DecidableEq

/-- One header+data unit; `data = none` models a null data payload. -/
structure HDU where
  header : FitsHeader
  data : Option HduData
deriving DecidableEq

/-- `hdu.header.get('object', hdu.header.get('desig'))`. -/
def headerName (h : FitsHeader) : Option String :=
  match h.object with
  | some n => some n
  | none => h.desig

namespace FitsPlotter

/-- `FitsPlotter._extract_wave`: reconstruct the wavelength list for a
flux series from the sampling header fields.  A missing `crpix1`,
`crval1`, or both of `cdelt1`/`cd1_1` is a `KeyError`. -/
def _extract_wave (h : FitsHeader) (flux : List ℚ) : Except Err (List WaveVal) :=
  match h.crpix1 with
  | none => .error (.missingHeader "crpix1")
  | some pix =>
    match h.crval1 with
    | none => .error (.missingHeader "crval1")
    | some first =>
      let deltaOpt := match h.cdelt1 with
        | some d => some d
        | none => h.cd1_1
      match deltaOpt with
      | none => .error (.missingHeader "cd1_1")
      | some delta =>
        let dc_flag := h.dcFlag.getD 0
        if dc_flag = 0 then
          .ok ((List.range flux.length).map fun (i : ℕ) =>
            WaveVal.val (first + ((i : ℚ) - (pix : ℚ) + 1) * delta))
        else
          .ok ((List.range flux.length).map fun (i : ℕ) =>
            WaveVal.tenPow (first + ((i : ℚ) - (pix : ℚ) + 1) * delta))

/-- The loop state of `_parse_spectrum_file`: the Python locals `name`,
`wave`, `flux`; `none` means the local is still unbound. -/
structure ParseState where
  name : Option (Option String)
  wave : Option Series
  flux : Option (List ℚ)
deriving DecidableEq

/-- The loop body of `_parse_spectrum_file` for one header+data unit.
A null data payload is skipped (`continue`); otherwise `name` is
reassigned and the branch on the declared axis count may reassign
`wave`/`flux` or raise. -/
def parseHdu (st : ParseState) (hdu : HDU) : Except Err ParseState :=
  match hdu.data with
  | none => .ok st
  | some d =>
    let name := headerName hdu.header
    if hdu.header.naxis = some 2 ∧ hdu.header.naxis2 = some 5 then
      match d with
      | .image rows =>
        match rows.head? with
        | none => .error .indexError
        | some flux =>
          match _extract_wave hdu.header flux with
          | .error e => .error e
          | .ok w => .ok ⟨some name, some (.waves w), some flux⟩
      | _ => .error .typeMismatch
    else if hdu.header.naxis = some 2 then
      match d with
      | .table cols =>
        let waveCol := match alookup cols "spectral" with
          | some w => some w
          | none => alookup cols "wave"
        match waveCol with
        | none => .error (.missingColumn "wave")
        | some wave =>
          match alookup cols "flux" with
          | none => .error (.missingColumn "flux")
          | some flux => .ok ⟨some name, some (.nums wave), some flux⟩
      | _ => .error .typeMismatch
    else if hdu.header.naxis = some 1 then
      match d with
      | .array1d vals =>
        match _extract_wave hdu.header vals with
        | .error e => .error e
        | .ok w => .ok ⟨some name, some (.waves w), some vals⟩
      | _ => .error .typeMismatch
    else
      .ok ⟨some name, st.wave, st.flux⟩

/-- The initial loop state: all three locals unbound. -/
def initState : ParseState := ⟨none, none, none⟩

/-- Run the `for hdu in hdulist` loop over the block list. -/
def runHdus (st : ParseState) : List HDU → Except Err ParseState
  | [] => .ok st
  | h :: t =>
    match parseHdu st h with
    | .error e => .error e
    | .ok st' => runHdus st' t

end FitsPlotter

/-- The record returned by a `_parse_spectrum_file` implementation
(the Python dict with keys `name`, `wave`, `flux`). -/
structure ParsedSpectrum where
  name : Option String
  wave : Option Series
  flux : Series
deriving DecidableEq

namespace FitsPlotter

/-- `FitsPlotter._parse_spectrum_file`: scan every header+data unit of the
file and return the dict built from the final values of the loop locals.
Reading a local never assigned by any block is a `NameError`. -/
def _parse_spectrum_file (hdus : List HDU) : Except Err ParsedSpectrum :=
  match runHdus initState hdus with
  | .error e => .error e
  | .ok st =>
    match st.name, st.wave, st.flux with
    | some nm, some w, some f => .ok ⟨nm, some w, .nums f⟩
    | _, _, _ => .error .nameError

end FitsPlotter

/-! ## Votable model (`VotPlotter`, `extract_meta_file`) -/

/-- One table of a votable document.  Every column is stored as its rows;
an array-valued field has genuine per-row arrays, a scalar field has
singleton rows.  `targname` models `get_field_by_id_or_name('ssa_targname')`
(`none` = the field is absent and the lookup raises `AttributeError`). -/
structure VotTable where
  cols : List (String × List (List ℚ))
  targname : Option String
deriving DecidableEq

/-- Contents of a file in the modelled filesystem.  `garbage` stands for
bytes no decoder can parse. -/
inductive FileContent where
  | fits (hdus : List HDU)
  | vot (tables : List VotTable)
  | text (lines : List String)
  | garbage
deriving DecidableEq

namespace VotPlotter

/-- `VotPlotter._parse_spectrum_file`: parse the document, take its first
table, read the `spectral` and `flux` columns (a missing column is a
`KeyError` that propagates), and the optional `ssa_targname` name (whose
absence is caught and yields no name). -/
def _parse_spectrum_file (c : FileContent) : Except Err ParsedSpectrum :=
  match c with
  | .vot tables =>
    match tables.head? with
    | none => .error .noTable
    | some t =>
      match alookup t.cols "spectral" with
      | none => .error (.missingColumn "spectral")
      | some wave =>
        match alookup t.cols "flux" with
        | none => .error (.missingColumn "flux")
        | some flux => .ok ⟨t.targname, some (.arrays wave), .arrays flux⟩
  | _ => .error .typeMismatch

end VotPlotter

/-- `extract_meta_file`: parse the file as a votable, take the first row of
the `intensities` field of the first table.  Every failure (unparseable
file, no table, missing field, empty column) is caught by the blanket
`except`, logged, and turned into `None`. -/
def extract_meta_file (c : FileContent) : Option (List ℚ) :=
  match c with
  | .vot tables =>
    match tables.head? with
    | none => none
    | some t =>
      match alookup t.cols "intensities" with
      | none => none
      | some rows => rows.head?
  | _ => none

/-! ## Csv model (`CsvPlotter`) -/

namespace CsvPlotter

/-- Delimiter sniffing on the first line: a space if the line contains
strictly more spaces than commas, else a comma. -/
def sniffDelimiter (line : List Char) : Char :=
  if line.count ' ' > line.count ',' then ' ' else ','

/-- `line.partition(delimiter)[0]`: the text before the first delimiter
occurrence (the whole line when the delimiter does not occur). -/
def firstField (d : Char) (line : List Char) : List Char :=
  line.takeWhile (fun c => ¬ c = d)

/-- `re.match(r'^[a-zA-Z].*$', first)`: does the first field start with an
ASCII letter? -/
def hasNames (d : Char) (line : List Char) : Bool :=
  match firstField d line with
  | c :: _ => c.isAlpha
  | [] => false

/-- One csv row split into string fields. -/
def splitFields (d : Char) (line : List Char) : List String :=
  (splitOnChar d line).map fun cs => ⟨cs⟩

/-- The `for spectrum in csv_reader` loop: each row becomes one curve and
one `spectra_count` increment; `counter` numbers unnamed rows.
(The `csv` module's quoting and blank-line conventions are not modelled;
rows are plain delimiter splits.) -/
def csvRows (file_name : String) (meta_wave : Option (List ℚ)) (names : Bool)
    (d : Char) : Axes → ℕ → List (List Char) → Axes
  | axes, _counter, [] => axes
  | axes, counter, line :: rest =>
    let fields := splitFields d line
    let label := if names then fields.headD "" else file_name ++ ": #" ++ toString counter
    let flux := if names then fields.tail else fields
    let counter' := if names then counter else counter + 1
    let curve : Curve := ⟨meta_wave.map Series.nums, Series.strs flux, label⟩
    csvRows file_name meta_wave names d
      ⟨axes.curves ++ [curve], axes.spectra_count + 1⟩ counter' rest

/-- `CsvPlotter.plot`: sniff the delimiter and the name column from the
first line (`readline` of an empty file gives the empty string), rewind,
and plot every line of the file as one spectrum. -/
def plot (axes : Axes) (file_name : String) (lines : List String)
    (meta_wave : Option (List ℚ)) : Axes :=
  let line := (lines.headD "").data
  let d := sniffDelimiter line
  let names := hasNames d line
  csvRows file_name meta_wave names d axes 0 (lines.map String.data)

/-- Closed form of the curve list appended by `csvRows` (used in proofs;
`mwx` is the common x-series of every row). -/
def rowsCurves (file_name : String) (mwx : Option Series) (names : Bool) (d : Char) :
    ℕ → List (List Char) → List Curve
  | _, [] => []
  | counter, line :: rest =>
    (if names then
      ⟨mwx, .strs (splitFields d line).tail, (splitFields d line).headD ""⟩
    else
      (⟨mwx, .strs (splitFields d line), file_name ++ ": #" ++ toString counter⟩ : Curve)) ::
    rowsCurves file_name mwx names d (if names then counter else counter + 1) rest

end CsvPlotter

/-! ## Shared plotting step (`AbstractPlotter.plot` after parsing) -/

/-- The body of `AbstractPlotter.plot` after `_parse_spectrum_file`
returned: compose the label, add one curve (with an x-series when the
parsed record has one), increment `spectra_count` by one. -/
def AbstractPlotter.plotParsed (axes : Axes) (file_name : String)
    (p : ParsedSpectrum) : Axes :=
  let label := match p.name with
    | none => file_name
    | some n => file_name ++ ": " ++ n
  let curve : Curve := match p.wave with
    | some w => ⟨some w, p.flux, label⟩
    | none => ⟨none, p.flux, label⟩
  ⟨axes.curves ++ [curve], axes.spectra_count + 1⟩

/-! ## Format detection (`file_extension`, `PLOTTER_MAPPING`) -/

/-- The decoder variants held by `PLOTTER_MAPPING`. -/
inductive Plotter where
  | fits
  | vot
  | csv
deriving DecidableEq

/-- `PLOTTER_MAPPING`: suffix → decoder. -/
def PLOTTER_MAPPING : List (String × Plotter) :=
  [("fits", .fits), ("fit", .fits), ("vot", .vot), ("csv", .csv), ("xml", .vot)]

/-- `file_extension`: raise on an empty name; otherwise the text after the
last `.`, whitespace-stripped, or `None` when there is no `.` or the
stripped suffix is empty. -/
def file_extension (filename : String) : Except Err (Option String) :=
  if filename = "" then .error .invalidName
  else
    let arr := splitOnChar '.' filename.data
    if arr.length ≤ 1 then .ok none
    else
      let ext := pyStrip (arr.getLastD [])
      if ext.length = 0 then .ok none else .ok (some ⟨ext⟩)

/-- `PLOTTER_MAPPING.get(ext)` (a `None` extension is simply not a key). -/
def lookupPlotter (ext : Option String) : Option Plotter :=
  match ext with
  | none => none
  | some e => alookup PLOTTER_MAPPING e

/-- The detector step of the batch loop: extension plus mapping; an
unmapped (or missing) extension raises `UnknownExtensionException`
naming it. -/
def detectFormat (filename : String) : Except Err Plotter :=
  match file_extension filename with
  | .error e => .error e
  | .ok ext =>
    match lookupPlotter ext with
    | some p => .ok p
    | none => .error (.unknownExtension ext)

/-! ## Location resolution (`path_mapper`) and the environment -/

/-- Process-wide configuration and the filesystem: the two configured
roots and a map from absolute path to file contents. -/
structure Env where
  filesystem_path : String
  jobs_path : String
  fs : List (String × FileContent)
deriving DecidableEq

/-- Join the configured root and the sanitised relative path.  (The
`os.path.abspath` normalisation is immaterial here: `..` segments have
already been rejected.) -/
def joinAbs (root : String) (p : List Char) : String :=
  root ++ "/" ++ ⟨p⟩

/-- `os.path.basename`: the text after the last `/`. -/
def basename (p : List Char) : String :=
  ⟨(splitOnChar '/' p).getLastD []⟩

/-- `path_mapper(location_prefix)(path)`: strip leading `/` characters,
reject any remaining `..` occurrence, and return
`(basename, absolute path)`. -/
def path_mapper (root : String) (path : String) : Except Err (String × String) :=
  let p := path.data.dropWhile (fun c => c = '/')
  if ['.', '.'] <:+: p then .error .invalidPath
  else .ok (basename p, joinAbs root p)

/-- Map the location token to its configured root directory. -/
def locationRoot (env : Env) (location : String) : Except Err String :=
  if location = "filesystem" then .ok env.filesystem_path
  else if location = "jobs" then .ok env.jobs_path
  else .error (.unknownLocation location)

/-- Resolve one raw batch entry: `path_mapper` plus the
`os.path.isfile` existence check, returning the file's contents as well. -/
def resolveEntry (env : Env) (root : String) (p : String) :
    Except Err (String × String × FileContent) :=
  match path_mapper root p with
  | .error e => .error e
  | .ok f =>
    match alookup env.fs f.2 with
    | some c => .ok (f.1, f.2, c)
    | none => .error (.fileNotFound f.1 f.2)

/-! ## Batch aggregation (`plot_spectra`) -/

/-- The first `for f in files` loop of `plot_spectra` (the lazily mapped
resolution): resolve each entry in order, check existence, absorb
`meta.xml` entries through `extract_meta_file` (the latest one winning),
and collect every other entry as a candidate spectrum file. -/
def metaScan (env : Env) (root : String) :
    List String → Option (List ℚ) → List (String × String) →
    Except Err (Option (List ℚ) × List (String × String))
  | [], mw, acc => .ok (mw, acc)
  | p :: rest, mw, acc =>
    match resolveEntry env root p with
    | .error e => .error e
    | .ok (nm, ap, c) =>
      if nm = "meta.xml" then metaScan env root rest (extract_meta_file c) acc
      else metaScan env root rest mw (acc ++ [(nm, ap)])

/-- Open an already-resolved path (plot-time `open`/`fits.open`). -/
def getContent (env : Env) (path : String) : Except Err FileContent :=
  match alookup env.fs path with
  | some c => .ok c
  | none => .error (.ioError path)

/-- One iteration of the second `for f in spectra_files` loop: detect the
format, dispatch to the decoder, add the resulting curve(s).  The meta
wave is passed to every plotter but only the csv plotter consumes it. -/
def plotOne (env : Env) (meta_wave : Option (List ℚ)) (axes : Axes)
    (f : String × String) : Except Err Axes :=
  match detectFormat f.1 with
  | .error e => .error e
  | .ok pl =>
    match getContent env f.2 with
    | .error e => .error e
    | .ok c =>
      match pl with
      | .fits =>
        match c with
        | .fits hdus =>
          match FitsPlotter._parse_spectrum_file hdus with
          | .error e => .error e
          | .ok parsed => .ok (AbstractPlotter.plotParsed axes f.1 parsed)
        | _ => .error .typeMismatch
      | .vot =>
        match VotPlotter._parse_spectrum_file c with
        | .error e => .error e
        | .ok parsed => .ok (AbstractPlotter.plotParsed axes f.1 parsed)
      | .csv =>
        match c with
        | .text lines => .ok (CsvPlotter.plot axes f.1 lines meta_wave)
        | _ => .error .typeMismatch

/-- The second loop of `plot_spectra`: decode and plot every candidate in
list order, stopping at the first failure. -/
def plotAll (env : Env) (meta_wave : Option (List ℚ)) :
    Axes → List (String × String) → Except Err Axes
  | axes, [] => .ok axes
  | axes, f :: rest =>
    match plotOne env meta_wave axes f with
    | .error e => .error e
    | .ok axes' => plotAll env meta_wave axes' rest

/-- `plot_spectra(axes, file_list, location)`. -/
def plot_spectra (env : Env) (axes : Axes) (file_list : List String)
    (location : String) : Except Err Axes :=
  if file_list.length = 0 then .error .emptyBatch
  else
    match locationRoot env location with
    | .error e => .error e
    | .ok root =>
      match metaScan env root file_list none [] with
      | .error e => .error e
      | .ok (meta_wave, spectra_files) =>
        if spectra_files.length = 0 then .error .emptyBatch
        else plotAll env meta_wave axes spectra_files

/-! ## Claim C2: the wavelength reconstructor's formula -/

/-- C2: for a flux series and header parameters `p` (`crpix1`), `c0`
(`crval1`) and `d` (`cdelt1` if present, else `cd1_1`), the reconstructor
returns, at every index `i < N`, the value `c0 + (i - p + 1) * d` when the
`dc-flag` field is absent or `0`, and `10 ^ (c0 + (i - p + 1) * d)`
otherwise (the power kept symbolic as `WaveVal.tenPow`). -/
theorem extract_wave_formula (h : FitsHeader) (p : ℤ) (c0 d : ℚ)
    (flux : List ℚ) (i : ℕ)
    (hp : h.crpix1 = some p) (hc : h.crval1 = some c0)
    (hd : h.cdelt1 = some d ∨ (h.cdelt1 = none ∧ h.cd1_1 = some d))
    (hi : i < flux.length) :
    ∃ w, FitsPlotter._extract_wave h flux = .ok w ∧
      w.length = flux.length ∧
      w.get? i = some (if h.dcFlag = none ∨ h.dcFlag = some 0
        then .val (c0 + ((i : ℚ) - (p : ℚ) + 1) * d)
        else .tenPow (c0 + ((i : ℚ) - (p : ℚ) + 1) * d)) := by
  have hdelta : (match h.cdelt1 with | some d0 => some d0 | none => h.cd1_1) = some d := by
    rcases hd with h1 | ⟨h1, h2⟩
    · simp [h1]
    · simp [h1, h2]
  have hflag : (h.dcFlag.getD 0 = 0) ↔ (h.dcFlag = none ∨ h.dcFlag = some 0) := by
    cases h.dcFlag <;> simp
  unfold FitsPlotter._extract_wave
  rw [hp, hc]
  simp only [hdelta]
  by_cases h0 : h.dcFlag.getD 0 = 0
  · rw [if_pos h0, if_pos (hflag.mp h0)]
    refine ⟨_, rfl, by rw [List.length_map, List.length_range], ?_⟩
    simp only [List.get?_map, List.get?_range hi, Option.map_some']
  · rw [if_neg h0, if_neg fun hor => h0 (hflag.mpr hor)]
    refine ⟨_, rfl, by rw [List.length_map, List.length_range], ?_⟩
    simp only [List.get?_map, List.get?_range hi, Option.map_some']

/-- Witness for C2 at the spec's round-trip example: `crpix1 = 1`,
`crval1 = 4000`, `cdelt1 = 2`, `dc-flag` absent, flux of length 3:
`wavelength[2] = 4000 + 2*2 = 4004`. -/
theorem extract_wave_formula_witness :
    ∃ w, FitsPlotter._extract_wave
        ⟨none, none, some 1, none, some 1, some 4000, some 2, none, none⟩ [9, 9, 9] = .ok w ∧
      w.length = 3 ∧ w.get? 2 = some (.val 4004) := by
  obtain ⟨w, hw, hlen, hget⟩ :=
    extract_wave_formula ⟨none, none, some 1, none, some 1, some 4000, some 2, none, none⟩
      1 4000 2 [9, 9, 9] 2 rfl rfl (Or.inl rfl) (by decide)
  refine ⟨w, hw, hlen, ?_⟩
  rw [hget]
  norm_num

/-! ## Claim C3: the resolver rejects every path containing `..` -/

/-- An occurrence of `..` survives the stripping of leading `/`
characters: the stripped-off leading run contains no `.`. -/
theorem infix_dropWhile_slash (l : List Char) (h : ['.', '.'] <:+: l) :
    ['.', '.'] <:+: l.dropWhile (fun c => c = '/') := by
  induction l with
  | nil => simp at h
  | cons c t ih =>
    by_cases hc : c = '/'
    · subst hc
      rw [List.dropWhile_cons_of_pos (by simp)]
      apply ih
      obtain ⟨s, u, hsu⟩ := h
      cases s with
      | nil => simp at hsu
      | cons a s2 =>
        refine ⟨s2, u, ?_⟩
        simpa using congrArg List.tail hsu
    · rwa [List.dropWhile_cons_of_neg (by simpa using hc)]

/-- C3: for every valid location identifier (hence every configured root)
and every raw path containing `..` anywhere, the resolver fails with the
traversal error and produces no request; stripping the leading path
separators cannot remove the `..` occurrence. -/
theorem path_mapper_rejects_traversal (env : Env) (location root path : String)
    (_hloc : locationRoot env location = .ok root)
    (hdd : ['.', '.'] <:+: path.data) :
    path_mapper root path = .error .invalidPath := by
  have hs := infix_dropWhile_slash path.data hdd
  unfold path_mapper
  simp only [if_pos hs]

/-- Witness for C3: `resolve("filesystem", "../x")` fails with the
traversal error. -/
theorem path_mapper_rejects_traversal_witness :
    path_mapper "/data" "../x" = .error .invalidPath :=
  path_mapper_rejects_traversal ⟨"/data", "/jobs", []⟩ "filesystem" "/data" "../x"
    (by decide) (by decide)

/-! ## Claim C4: format detection (corrected: it is case-sensitive) -/

/-- C4 counterexample: the detector does NOT lowercase the suffix.  The
file name `a.FITS` fails with the unknown-extension error naming `FITS`
instead of selecting the tabular-binary decoder, while the lowercase
`a.fits` succeeds. -/
theorem detect_format_case_counterexample :
    detectFormat "a.FITS" = .error (.unknownExtension (some "FITS")) ∧
    detectFormat "a.FITS" ≠ .ok .fits ∧
    detectFormat "a.fits" = .ok .fits := by decide

/-- Spell out the suffix → decoder dictionary as an if-chain. -/
theorem alookup_plotter (ext : String) :
    alookup PLOTTER_MAPPING ext =
      if ext = "fits" then some .fits
      else if ext = "fit" then some .fits
      else if ext = "vot" then some .vot
      else if ext = "csv" then some .csv
      else if ext = "xml" then some .vot
      else none := by
  simp only [PLOTTER_MAPPING, alookup]
  split_ifs <;> subst_vars <;> simp_all

/-- C4 amended: the detector returns the whitespace-stripped suffix after
the last `.` case-sensitively (no lowercasing).  Exactly the suffixes
`fits`/`fit` (tabular-binary), `vot`/`xml` (votable) and `csv`
(delimited-text) map to decoders; every other suffix — including
upper-case variants — fails with the unknown-extension error naming the
offending suffix, and an empty file name fails with the invalid-name
error. -/
theorem detect_format_amended :
    (file_extension "" = .error .invalidName) ∧
    (∀ fn ext, file_extension fn = .ok (some ext) →
      (detectFormat fn = .ok .fits ↔ (ext = "fits" ∨ ext = "fit")) ∧
      (detectFormat fn = .ok .vot ↔ (ext = "vot" ∨ ext = "xml")) ∧
      (detectFormat fn = .ok .csv ↔ ext = "csv") ∧
      (ext ∉ ["fits", "fit", "vot", "csv", "xml"] →
        detectFormat fn = .error (.unknownExtension (some ext)))) ∧
    (∀ fn, file_extension fn = .ok none →
      detectFormat fn = .error (.unknownExtension none)) := by
  refine ⟨by decide, ?_, ?_⟩
  · intro fn ext hfe
    have hdet : detectFormat fn =
        (match alookup PLOTTER_MAPPING ext with
          | some p => .ok p
          | none => .error (.unknownExtension (some ext))) := by
      simp [detectFormat, hfe, lookupPlotter]
    rw [alookup_plotter ext] at hdet
    split_ifs at hdet with h1 h2 h3 h4 h5 <;>
      simp_all
  · intro fn hfe
    simp [detectFormat, hfe, lookupPlotter]

/-- Witness for C4 (amended): `a.vot` maps to the votable decoder, and the
unmapped suffix `dat` fails naming `dat`. -/
theorem detect_format_amended_witness :
    detectFormat "a.vot" = .ok .vot ∧
    detectFormat "b.dat" = .error (.unknownExtension (some "dat")) := by
  constructor
  · exact ((detect_format_amended.2.1 "a.vot" "vot" (by decide)).2.1).mpr (Or.inl rfl)
  · exact (detect_format_amended.2.1 "b.dat" "dat" (by decide)).2.2.2 (by decide)

/-! ## Claim C1: block selection in the tabular-binary decoder
(corrected: the last non-null block wins, not the first) -/

/-- C1 counterexample: a file with two one-axis blocks, both with non-null
data.  First-match-wins would return block 1 (`name A`, `flux [5]`); the
code returns block 2 (`name B`, `flux [7]`): the loop has no `break`, so
each later non-null block overwrites the earlier result. -/
theorem parse_spectrum_first_match_fails :
    FitsPlotter._parse_spectrum_file
        [⟨⟨some "A", none, some 1, none, some 1, some 0, some 1, none, none⟩,
          some (.array1d [5])⟩,
         ⟨⟨some "B", none, some 1, none, some 1, some 0, some 1, none, none⟩,
          some (.array1d [7])⟩] =
      .ok ⟨some "B", some (.waves [.val 0]), .nums [7]⟩ ∧
    FitsPlotter._parse_spectrum_file
        [⟨⟨some "A", none, some 1, none, some 1, some 0, some 1, none, none⟩,
          some (.array1d [5])⟩,
         ⟨⟨some "B", none, some 1, none, some 1, some 0, some 1, none, none⟩,
          some (.array1d [7])⟩] ≠
      .ok ⟨some "A", some (.waves [.val 0]), .nums [5]⟩ := by
  have h : FitsPlotter._parse_spectrum_file
        [⟨⟨some "A", none, some 1, none, some 1, some 0, some 1, none, none⟩,
          some (.array1d [5])⟩,
         ⟨⟨some "B", none, some 1, none, some 1, some 0, some 1, none, none⟩,
          some (.array1d [7])⟩] =
      .ok ⟨some "B", some (.waves [.val 0]), .nums [7]⟩ := by
    norm_num [FitsPlotter._parse_spectrum_file, FitsPlotter.runHdus, FitsPlotter.parseHdu,
      FitsPlotter.initState, FitsPlotter._extract_wave, headerName, List.range_succ]
  refine ⟨h, ?_⟩
  rw [h]
  intro hcontra
  have := (Except.ok.injEq _ _).mp hcontra
  simp at this

/-- When a block has non-null data and a handled axis count (1 or 2), the
loop body's outcome does not depend on the incoming state: every branch
either raises or assigns all three locals. -/
theorem parseHdu_state_free (st st' : FitsPlotter.ParseState) (hdu : HDU) (d : HduData)
    (hdata : hdu.data = some d)
    (hnax : hdu.header.naxis = some 1 ∨ hdu.header.naxis = some 2) :
    FitsPlotter.parseHdu st hdu = FitsPlotter.parseHdu st' hdu := by
  unfold FitsPlotter.parseHdu
  rw [hdata]
  rcases hnax with h | h
  · simp [h]
  · by_cases h5 : hdu.header.naxis2 = some 5 <;> simp [h, h5]

/-- Running the block loop over an appended list runs the two parts in
sequence. -/
theorem runHdus_append (st : FitsPlotter.ParseState) (l1 l2 : List HDU) :
    FitsPlotter.runHdus st (l1 ++ l2) =
      match FitsPlotter.runHdus st l1 with
      | .error e => .error e
      | .ok st' => FitsPlotter.runHdus st' l2 := by
  induction l1 generalizing st with
  | nil => simp [FitsPlotter.runHdus]
  | cons h t ih =>
    simp only [List.cons_append, FitsPlotter.runHdus]
    cases FitsPlotter.parseHdu st h <;> simp [ih]

/-- C1 amended: the decoder selects the LAST block with non-null data in
scan order: whenever the blocks before the final one scan without raising
and the final block has non-null data with a handled axis count, the
returned name, wavelength and flux are exactly the final block's — every
earlier block's values are overwritten (the loop has no `break`). -/
theorem parse_spectrum_selects_last (pre : List HDU) (hdu : HDU)
    (st : FitsPlotter.ParseState) (d : HduData)
    (nm : Option String) (w : Series) (f : List ℚ)
    (hpre : FitsPlotter.runHdus FitsPlotter.initState pre = .ok st)
    (hdata : hdu.data = some d)
    (hnax : hdu.header.naxis = some 1 ∨ hdu.header.naxis = some 2)
    (hlast : FitsPlotter.parseHdu FitsPlotter.initState hdu = .ok ⟨some nm, some w, some f⟩) :
    FitsPlotter._parse_spectrum_file (pre ++ [hdu]) = .ok ⟨nm, some w, .nums f⟩ := by
  unfold FitsPlotter._parse_spectrum_file
  rw [runHdus_append, hpre]
  simp only [FitsPlotter.runHdus]
  rw [parseHdu_state_free st FitsPlotter.initState hdu d hdata hnax, hlast]

/-- Witness for C1 (amended) at the counterexample file: the result is
block 2's record. -/
theorem parse_spectrum_selects_last_witness :
    FitsPlotter._parse_spectrum_file
        [⟨⟨some "A", none, some 1, none, some 1, some 0, some 1, none, none⟩,
          some (.array1d [5])⟩,
         ⟨⟨some "B", none, some 1, none, some 1, some 0, some 1, none, none⟩,
          some (.array1d [7])⟩] =
      .ok ⟨some "B", some (.waves [.val 0]), .nums [7]⟩ := by
  have happly := parse_spectrum_selects_last
    [⟨⟨some "A", none, some 1, none, some 1, some 0, some 1, none, none⟩,
      some (.array1d [5])⟩]
    ⟨⟨some "B", none, some 1, none, some 1, some 0, some 1, none, none⟩,
      some (.array1d [7])⟩
    ⟨some (some "A"), some (.waves [.val 0]), some [5]⟩ (.array1d [7])
    (some "B") (.waves [.val 0]) [7]
    (by norm_num [FitsPlotter.runHdus, FitsPlotter.parseHdu, FitsPlotter.initState,
      FitsPlotter._extract_wave, headerName, List.range_succ])
    rfl (Or.inl rfl)
    (by norm_num [FitsPlotter.parseHdu, FitsPlotter.initState,
      FitsPlotter._extract_wave, headerName, List.range_succ])
  exact happly

/-! ## Claim C8: the delimited-text decoder -/

/-- The row loop appends exactly the `rowsCurves` closed form and adds one
count per row. -/
theorem csvRows_eq (fname : String) (mw : Option (List ℚ)) (names : Bool) (d : Char) :
    ∀ (rows : List (List Char)) (axes : Axes) (counter : ℕ),
    CsvPlotter.csvRows fname mw names d axes counter rows =
      ⟨axes.curves ++ CsvPlotter.rowsCurves fname (mw.map Series.nums) names d counter rows,
       axes.spectra_count + rows.length⟩ := by
  intro rows
  induction rows with
  | nil => intro axes counter; simp [CsvPlotter.csvRows, CsvPlotter.rowsCurves]
  | cons line rest ih =>
    intro axes counter
    simp only [CsvPlotter.csvRows, CsvPlotter.rowsCurves]
    rw [ih]
    cases names <;> simp <;> omega

/-- `rowsCurves` has one curve per row. -/
theorem rowsCurves_length (fname : String) (mwx : Option Series) (names : Bool) (d : Char) :
    ∀ (rows : List (List Char)) (counter : ℕ),
    (CsvPlotter.rowsCurves fname mwx names d counter rows).length = rows.length := by
  intro rows
  induction rows with
  | nil => intro counter; simp [CsvPlotter.rowsCurves]
  | cons line rest ih => intro counter; simp [CsvPlotter.rowsCurves, ih]

/-- The `k`-th curve of `rowsCurves`, with the unnamed counter offset. -/
theorem rowsCurves_get (fname : String) (mwx : Option Series) (names : Bool) (d : Char) :
    ∀ (rows : List (List Char)) (counter k : ℕ) (line : List Char),
    rows.get? k = some line →
    (CsvPlotter.rowsCurves fname mwx names d counter rows).get? k =
      some (if names then
        ⟨mwx, .strs (CsvPlotter.splitFields d line).tail,
          (CsvPlotter.splitFields d line).headD ""⟩
      else
        ⟨mwx, .strs (CsvPlotter.splitFields d line),
          fname ++ ": #" ++ toString (counter + k)⟩) := by
  intro rows
  induction rows with
  | nil => intro counter k line hk; simp at hk
  | cons r rest ih =>
    intro counter k line hk
    cases k with
    | zero =>
      simp only [List.get?_cons_zero, Option.some.injEq] at hk
      subst hk
      cases names <;> simp [CsvPlotter.rowsCurves]
    | succ k2 =>
      simp only [List.get?_cons_succ] at hk
      have := ih (if names then counter else counter + 1) k2 line hk
      cases names <;>
        simpa [CsvPlotter.rowsCurves, Nat.add_assoc, Nat.add_comm 1 k2] using this

/-- C8: delimited-text decoding.  The delimiter is a space exactly when
the first line has strictly more spaces than commas; rows carry a leading
name column exactly when the first field of the first line starts with an
ASCII letter; otherwise row `k` (0-based) is labelled
`"<fileBaseName>: #k"`; every row becomes exactly one curve, plotted
against the meta grid when one is supplied (`x = the grid`) and against
its own index otherwise (`x = none`). -/
theorem csv_plot_characterisation (axes : Axes) (fname : String)
    (lines : List String) (mw : Option (List ℚ)) (d0 : Char) (names : Bool)
    (hd0 : d0 = CsvPlotter.sniffDelimiter (lines.headD "").data)
    (hnm : names = CsvPlotter.hasNames d0 (lines.headD "").data) :
    (d0 = ' ' ↔ (lines.headD "").data.count ' ' > (lines.headD "").data.count ',') ∧
    (names = true ↔ ∃ c cs, CsvPlotter.firstField d0 (lines.headD "").data = c :: cs ∧
      c.isAlpha = true) ∧
    ((CsvPlotter.plot axes fname lines mw).spectra_count =
      axes.spectra_count + lines.length) ∧
    ((CsvPlotter.plot axes fname lines mw).curves.length =
      axes.curves.length + lines.length) ∧
    (∀ k line, lines.get? k = some line →
      (CsvPlotter.plot axes fname lines mw).curves.get? (axes.curves.length + k) =
        some (if names then
          ⟨mw.map Series.nums, .strs (CsvPlotter.splitFields d0 line.data).tail,
            (CsvPlotter.splitFields d0 line.data).headD ""⟩
        else
          ⟨mw.map Series.nums, .strs (CsvPlotter.splitFields d0 line.data),
            fname ++ ": #" ++ toString k⟩)) := by
  have hplot : CsvPlotter.plot axes fname lines mw =
      ⟨axes.curves ++ CsvPlotter.rowsCurves fname (mw.map Series.nums) names d0 0
          (lines.map String.data),
        axes.spectra_count + (lines.map String.data).length⟩ := by
    rw [CsvPlotter.plot, ← hd0, ← hnm, csvRows_eq]
  refine ⟨?_, ?_, ?_, ?_, ?_⟩
  · rw [hd0]
    unfold CsvPlotter.sniffDelimiter
    split_ifs with h
    · simpa using h
    · simpa using h
  · rw [hnm]
    unfold CsvPlotter.hasNames
    cases hf : CsvPlotter.firstField d0 (lines.headD "").data <;> simp [hf]
  · rw [hplot]; simp
  · rw [hplot]; simp [rowsCurves_length]
  · intro k line hk
    rw [hplot]
    simp only
    rw [List.get?_append_right (Nat.le_add_right _ _), Nat.add_sub_cancel_left]
    have hrow : (lines.map String.data).get? k = some line.data := by
      rw [List.get?_map, hk, Option.map_some']
    have := rowsCurves_get fname (mw.map Series.nums) names d0
      (lines.map String.data) 0 k line.data hrow
    simpa using this

/-- Witness for C8: a two-line comma file without a name column; row 1 is
the curve labelled `f.csv: #1` with fields `["3", "4"]`, plotted against
its own index. -/
theorem csv_plot_characterisation_witness :
    (CsvPlotter.plot ⟨[], 0⟩ "f.csv" ["1,2", "3,4"] none).curves.get? (0 + 1) =
      some ⟨none, .strs ["3", "4"], "f.csv: #1"⟩ ∧
    (CsvPlotter.plot ⟨[], 0⟩ "f.csv" ["1,2", "3,4"] none).spectra_count = 0 + 2 := by
  have h := csv_plot_characterisation ⟨[], 0⟩ "f.csv" ["1,2", "3,4"] none ',' false
    (by decide) (by decide)
  refine ⟨?_, by simpa using h.2.2.1⟩
  have := h.2.2.2.2 1 "3,4" (by decide)
  simpa using this

/-! ## Claim C9: every decoded spectrum adds exactly one curve -/

/-- The shared plotting step appends exactly one curve and adds one to the
count. -/
theorem plotParsed_extends (axes : Axes) (fname : String) (p : ParsedSpectrum) :
    ∃ c, AbstractPlotter.plotParsed axes fname p =
      ⟨axes.curves ++ [c], axes.spectra_count + 1⟩ := by
  cases hw : p.wave <;> simp [AbstractPlotter.plotParsed, hw]

/-- The csv plotter appends one curve per row. -/
theorem csvPlot_extends (axes : Axes) (fname : String) (lines : List String)
    (mw : Option (List ℚ)) :
    ∃ added, CsvPlotter.plot axes fname lines mw =
      ⟨axes.curves ++ added, axes.spectra_count + added.length⟩ ∧
      added.length = lines.length := by
  refine ⟨CsvPlotter.rowsCurves fname (mw.map Series.nums)
    (CsvPlotter.hasNames (CsvPlotter.sniffDelimiter (lines.headD "").data)
      (lines.headD "").data)
    (CsvPlotter.sniffDelimiter (lines.headD "").data) 0 (lines.map String.data),
    ?_, ?_⟩
  · rw [CsvPlotter.plot, csvRows_eq]
    simp [rowsCurves_length]
  · simp [rowsCurves_length]

/-- One batch-loop iteration only ever appends curves and counts them
one-for-one. -/
theorem plotOne_extends (env : Env) (mw : Option (List ℚ)) (axes ax' : Axes)
    (f : String × String) (h : plotOne env mw axes f = .ok ax') :
    ∃ added, ax'.curves = axes.curves ++ added ∧
      ax'.spectra_count = axes.spectra_count + added.length := by
  unfold plotOne at h
  cases hdf : detectFormat f.1 with
  | error e => rw [hdf] at h; exact absurd h (by simp)
  | ok pl =>
    rw [hdf] at h
    dsimp only at h
    cases hgc : getContent env f.2 with
    | error e => rw [hgc] at h; exact absurd h (by simp)
    | ok c =>
      rw [hgc] at h
      dsimp only at h
      cases pl with
      | fits =>
        cases c with
        | fits hdus =>
          dsimp only at h
          cases hp : FitsPlotter._parse_spectrum_file hdus with
          | error e => rw [hp] at h; exact absurd h (by simp)
          | ok parsed =>
            rw [hp] at h
            obtain ⟨cv, hcv⟩ := plotParsed_extends axes f.1 parsed
            simp only [Except.ok.injEq] at h
            exact ⟨[cv], by rw [← h, hcv], by rw [← h, hcv]; simp⟩
        | vot tables => exact absurd h (by simp)
        | text lines => exact absurd h (by simp)
        | garbage => exact absurd h (by simp)
      | vot =>
        dsimp only at h
        cases hp : VotPlotter._parse_spectrum_file c with
        | error e => rw [hp] at h; exact absurd h (by simp)
        | ok parsed =>
          rw [hp] at h
          obtain ⟨cv, hcv⟩ := plotParsed_extends axes f.1 parsed
          simp only [Except.ok.injEq] at h
          exact ⟨[cv], by rw [← h, hcv], by rw [← h, hcv]; simp⟩
      | csv =>
        cases c with
        | fits hdus => exact absurd h (by simp)
        | vot tables => exact absurd h (by simp)
        | garbage => exact absurd h (by simp)
        | text lines =>
          dsimp only at h
          simp only [Except.ok.injEq] at h
          obtain ⟨added, hpl, hlen⟩ := csvPlot_extends axes f.1 lines mw
          exact ⟨added, by rw [← h, hpl], by rw [← h, hpl]⟩

/-- The batch loop only ever appends curves and counts them one-for-one. -/
theorem plotAll_extends (env : Env) (mw : Option (List ℚ)) :
    ∀ (files : List (String × String)) (axes ax' : Axes),
    plotAll env mw axes files = .ok ax' →
    ∃ added, ax'.curves = axes.curves ++ added ∧
      ax'.spectra_count = axes.spectra_count + added.length := by
  intro files
  induction files with
  | nil =>
    intro axes ax' h
    simp only [plotAll, Except.ok.injEq] at h
    exact ⟨[], by rw [← h]; simp, by rw [← h]; simp⟩
  | cons f rest ih =>
    intro axes ax' h
    simp only [plotAll] at h
    cases hone : plotOne env mw axes f with
    | error e => rw [hone] at h; exact absurd h (by simp)
    | ok axm =>
      rw [hone] at h
      obtain ⟨a1, h1c, h1s⟩ := plotOne_extends env mw axes axm f hone
      obtain ⟨a2, h2c, h2s⟩ := ih axm ax' h
      exact ⟨a1 ++ a2, by rw [h2c, h1c, List.append_assoc],
        by rw [h2s, h1s]; simp [Nat.add_assoc]⟩

/-- C9: every decoded spectrum handed to the plot target adds exactly one
to the curve count: the shared single-spectrum step adds one curve and one
count; a delimited-text file with R rows adds R curves and R counts; and a
fully successful batch leaves the target extended by exactly the decoded
curves, in order, with the count increased by their number. -/
theorem curve_count_invariant :
    (∀ axes fname p, ∃ c, AbstractPlotter.plotParsed axes fname p =
      ⟨axes.curves ++ [c], axes.spectra_count + 1⟩) ∧
    (∀ axes fname lines mw, ∃ added, CsvPlotter.plot axes fname lines mw =
      ⟨axes.curves ++ added, axes.spectra_count + added.length⟩ ∧
      added.length = lines.length) ∧
    (∀ env axes file_list location ax',
      plot_spectra env axes file_list location = .ok ax' →
      ∃ added, ax'.curves = axes.curves ++ added ∧
        ax'.spectra_count = axes.spectra_count + added.length) := by
  refine ⟨plotParsed_extends, csvPlot_extends, ?_⟩
  intro env axes list loc ax' h
  unfold plot_spectra at h
  split at h
  · exact absurd h (by simp)
  · cases hloc : locationRoot env loc with
    | error e => rw [hloc] at h; exact absurd h (by simp)
    | ok root =>
      rw [hloc] at h
      dsimp only at h
      cases hms : metaScan env root list none [] with
      | error e => rw [hms] at h; exact absurd h (by simp)
      | ok r =>
        rw [hms] at h
        dsimp only at h
        split at h
        · exact absurd h (by simp)
        · exact plotAll_extends env r.1 r.2 axes ax' h

/-- Witness for C9: a one-row csv batch adds exactly one curve and one
count. -/
theorem curve_count_invariant_witness :
    ∃ added, ([⟨none, Series.strs ["1", "2"], "a.csv: #0"⟩] : List Curve) = [] ++ added ∧
      (1 : ℕ) = 0 + added.length := by
  have h := curve_count_invariant.2.2 ⟨"/r", "/j", [("/r/a.csv", .text ["1,2"])]⟩
    ⟨[], 0⟩ ["a.csv"] "filesystem" ⟨[⟨none, .strs ["1", "2"], "a.csv: #0"⟩], 1⟩
    (by decide)
  simpa using h

/-! ## Claim C5: batch ordering and fail-fast (corrected: two phases) -/

/-- C5 counterexample: in the batch `["a.xyz", "../b"]` the first file
fails to decode (unknown suffix `xyz`, as the singleton batch shows), yet
the reported error is the SECOND file's resolution failure: all resolution
happens before any decoding, so a later file is resolved after an earlier
file's decode failure has become inevitable — contradicting strict
in-input-order failure. -/
theorem batch_order_counterexample :
    plot_spectra ⟨"/fsroot", "/jobs", [("/fsroot/a.xyz", .text ["1,2"])]⟩ ⟨[], 0⟩
        ["a.xyz", "../b"] "filesystem" = .error .invalidPath ∧
    plot_spectra ⟨"/fsroot", "/jobs", [("/fsroot/a.xyz", .text ["1,2"])]⟩ ⟨[], 0⟩
        ["a.xyz"] "filesystem" = .error (.unknownExtension (some "xyz")) ∧
    Err.invalidPath ≠ Err.unknownExtension (some "xyz") := by decide

/-- A resolution failure at entry `p` aborts the scan, whatever follows. -/
theorem metaScan_error_of (env : Env) (root : String) (p : String) (e : Err)
    (hp : resolveEntry env root p = .error e) :
    ∀ (pre rest : List String) (mw : Option (List ℚ)) (acc : List (String × String)),
    (∀ q ∈ pre, ∃ r, resolveEntry env root q = .ok r) →
    metaScan env root (pre ++ p :: rest) mw acc = .error e := by
  intro pre
  induction pre with
  | nil =>
    intro rest mw acc _
    simp only [List.nil_append, metaScan]
    rw [hp]
  | cons q t ih =>
    intro rest mw acc hpre
    obtain ⟨r, hr⟩ := hpre q (by simp)
    simp only [List.cons_append, metaScan]
    rw [hr]
    dsimp only
    have hpre2 : ∀ q2 ∈ t, ∃ r2, resolveEntry env root q2 = .ok r2 :=
      fun q2 hq2 => hpre q2 (by simp [hq2])
    split
    · show metaScan env root (t ++ p :: rest) _ acc = .error e
      exact ih rest _ acc hpre2
    · show metaScan env root (t ++ p :: rest) mw _ = .error e
      exact ih rest mw _ hpre2

/-- The decode loop over an appended candidate list runs in sequence. -/
theorem plotAll_append (env : Env) (mw : Option (List ℚ)) :
    ∀ (l1 l2 : List (String × String)) (axes : Axes),
    plotAll env mw axes (l1 ++ l2) =
      match plotAll env mw axes l1 with
      | .error e => .error e
      | .ok ax' => plotAll env mw ax' l2 := by
  intro l1
  induction l1 with
  | nil => intro l2 axes; simp [plotAll]
  | cons f t ih =>
    intro l2 axes
    simp only [List.cons_append, plotAll]
    cases plotOne env mw axes f <;> simp [ih]

/-- C5 amended: the batch runs in two sequential phases.  Phase one
resolves (and existence-checks) every entry in input order and fails fast
on the first resolution error — even when an earlier entry would later
fail to decode, the later entry's resolution error is the one reported,
and entries after the first resolution failure are never examined.  Phase
two decodes and plots the candidates in input order and fails fast on the
first decode error: candidates after it are never decoded or plotted, and
errors are never accumulated. -/
theorem batch_two_phase_fail_fast :
    (∀ (env : Env) (axes : Axes) (location root : String)
      (pre : List String) (p : String) (rest : List String) (e : Err),
      locationRoot env location = .ok root →
      (∀ q ∈ pre, ∃ r, resolveEntry env root q = .ok r) →
      resolveEntry env root p = .error e →
      plot_spectra env axes (pre ++ p :: rest) location = .error e) ∧
    (∀ (env : Env) (axes ax' : Axes) (location root : String)
      (file_list : List String) (mw : Option (List ℚ))
      (files1 : List (String × String)) (f : String × String)
      (files2 : List (String × String)) (e : Err),
      locationRoot env location = .ok root →
      metaScan env root file_list none [] = .ok (mw, files1 ++ f :: files2) →
      plotAll env mw axes files1 = .ok ax' →
      plotOne env mw ax' f = .error e →
      plot_spectra env axes file_list location = .error e) := by
  constructor
  · intro env axes location root pre p rest e hloc hpre hp
    unfold plot_spectra
    rw [if_neg (by simp)]
    rw [hloc]
    dsimp only
    rw [metaScan_error_of env root p e hp pre rest none [] hpre]
  · intro env axes ax' location root list mw files1 f files2 e hloc hms h1 hf
    have hlist : ¬list.length = 0 := by
      intro h0
      rw [List.length_eq_zero] at h0
      subst h0
      simp only [metaScan] at hms
      have : (files1 ++ f :: files2 : List (String × String)) = [] := by
        simpa using (Prod.mk.injEq _ _ _ _).mp ((Except.ok.injEq _ _).mp hms) |>.2
      simp at this
    unfold plot_spectra
    rw [if_neg hlist, hloc]
    dsimp only
    rw [hms]
    dsimp only
    rw [if_neg (by simp)]
    rw [plotAll_append, h1]
    simp only [plotAll]
    rw [hf]

/-- Witness for C5 (amended), phase one: with a decodable first entry and
an unresolvable second entry, the batch reports the second entry's
resolution error. -/
theorem batch_two_phase_fail_fast_witness :
    plot_spectra ⟨"/fsroot", "/jobs", [("/fsroot/a.csv", .text ["1,2"])]⟩ ⟨[], 0⟩
        ["a.csv", "../b"] "filesystem" = .error .invalidPath := by
  have h := batch_two_phase_fail_fast.1
    ⟨"/fsroot", "/jobs", [("/fsroot/a.csv", .text ["1,2"])]⟩ ⟨[], 0⟩
    "filesystem" "/fsroot" ["a.csv"] "../b" [] .invalidPath
    (by decide)
    (by
      intro q hq
      simp only [List.mem_singleton] at hq
      subst hq
      exact ⟨("a.csv", "/fsroot/a.csv", .text ["1,2"]), by decide⟩)
    (by decide)
  simpa using h

/-! ## Claim C6: the empty-batch error and its exact trigger conditions

The next block of lemmas classifies every other error source, showing none
of them can produce the empty-batch error. -/

/-- A failing location lookup never raises the empty-batch error. -/
theorem locationRoot_ne_emptyBatch (env : Env) (loc : String) (e : Err)
    (h : locationRoot env loc = .error e) : e ≠ .emptyBatch := by
  unfold locationRoot at h
  split_ifs at h <;>
    first
      | (simp only [Except.error.injEq] at h; subst h; simp)
      | simp at h

/-- A failing path resolution never raises the empty-batch error. -/
theorem path_mapper_ne_emptyBatch (root p : String) (e : Err)
    (h : path_mapper root p = .error e) : e ≠ .emptyBatch := by
  unfold path_mapper at h
  dsimp only at h
  split_ifs at h <;>
    first
      | (simp only [Except.error.injEq] at h; subst h; simp)
      | simp at h

/-- A failing entry resolution never raises the empty-batch error. -/
theorem resolveEntry_ne_emptyBatch (env : Env) (root p : String) (e : Err)
    (h : resolveEntry env root p = .error e) : e ≠ .emptyBatch := by
  unfold resolveEntry at h
  cases hp : path_mapper root p with
  | error e2 =>
    rw [hp] at h
    simp only [Except.error.injEq] at h
    subst h
    exact path_mapper_ne_emptyBatch root p _ hp
  | ok f =>
    rw [hp] at h
    dsimp only at h
    split at h
    · simp at h
    · simp only [Except.error.injEq] at h
      subst h
      simp

/-- A failing resolution scan never raises the empty-batch error. -/
theorem metaScan_ne_emptyBatch (env : Env) (root : String) :
    ∀ (l : List String) (mw : Option (List ℚ)) (acc : List (String × String)) (e : Err),
    metaScan env root l mw acc = .error e → e ≠ .emptyBatch := by
  intro l
  induction l with
  | nil => intro mw acc e h; simp [metaScan] at h
  | cons p t ih =>
    intro mw acc e h
    simp only [metaScan] at h
    cases hp : resolveEntry env root p with
    | error e2 =>
      rw [hp] at h
      simp only [Except.error.injEq] at h
      subst h
      exact resolveEntry_ne_emptyBatch env root p _ hp
    | ok r =>
      rw [hp] at h
      dsimp only at h
      split at h <;> exact ih _ _ _ h

/-- A failing extension extraction never raises the empty-batch error. -/
theorem file_extension_ne_emptyBatch (fn : String) (e : Err)
    (h : file_extension fn = .error e) : e ≠ .emptyBatch := by
  unfold file_extension at h
  dsimp only at h
  split_ifs at h
  · simp only [Except.error.injEq] at h
    subst h
    simp
  all_goals simp at h

/-- A failing format detection never raises the empty-batch error. -/
theorem detectFormat_ne_emptyBatch (fn : String) (e : Err)
    (h : detectFormat fn = .error e) : e ≠ .emptyBatch := by
  unfold detectFormat at h
  cases hf : file_extension fn with
  | error e2 =>
    rw [hf] at h
    simp only [Except.error.injEq] at h
    subst h
    exact file_extension_ne_emptyBatch fn _ hf
  | ok ext =>
    rw [hf] at h
    dsimp only at h
    split at h
    · simp at h
    · simp only [Except.error.injEq] at h
      subst h
      simp

/-- A failing plot-time open never raises the empty-batch error. -/
theorem getContent_ne_emptyBatch (env : Env) (p : String) (e : Err)
    (h : getContent env p = .error e) : e ≠ .emptyBatch := by
  unfold getContent at h
  split at h
  · simp at h
  · simp only [Except.error.injEq] at h
    subst h
    simp

/-- A failing wavelength reconstruction never raises the empty-batch
error. -/
theorem extract_wave_ne_emptyBatch (h0 : FitsHeader) (flux : List ℚ) (e : Err)
    (h : FitsPlotter._extract_wave h0 flux = .error e) : e ≠ .emptyBatch := by
  unfold FitsPlotter._extract_wave at h
  cases hpix : h0.crpix1 with
  | none => rw [hpix] at h; simp only [Except.error.injEq] at h; subst h; simp
  | some pix =>
    rw [hpix] at h
    dsimp only at h
    cases hcv : h0.crval1 with
    | none => rw [hcv] at h; simp only [Except.error.injEq] at h; subst h; simp
    | some c0 =>
      rw [hcv] at h
      dsimp only at h
      cases hcd : h0.cdelt1 with
      | some d =>
        rw [hcd] at h
        dsimp only at h
        split at h <;> simp at h
      | none =>
        rw [hcd] at h
        dsimp only at h
        cases hc11 : h0.cd1_1 with
        | none => rw [hc11] at h; simp only [Except.error.injEq] at h; subst h; simp
        | some d =>
          rw [hc11] at h
          dsimp only at h
          split at h <;> simp at h

/-- A failing block-loop body never raises the empty-batch error. -/
theorem parseHdu_ne_emptyBatch (st : FitsPlotter.ParseState) (hdu : HDU) (e : Err)
    (h : FitsPlotter.parseHdu st hdu = .error e) : e ≠ .emptyBatch := by
  unfold FitsPlotter.parseHdu at h
  cases hd : hdu.data with
  | none => rw [hd] at h; simp at h
  | some d =>
    rw [hd] at h
    dsimp only at h
    by_cases h25 : hdu.header.naxis = some 2 ∧ hdu.header.naxis2 = some 5
    · rw [if_pos h25] at h
      cases d with
      | image rows =>
        dsimp only at h
        cases hr : rows.head? with
        | none =>
          rw [hr] at h
          simp only [Except.error.injEq] at h
          subst h
          simp
        | some flux =>
          rw [hr] at h
          dsimp only at h
          cases hw : FitsPlotter._extract_wave hdu.header flux with
          | error e2 =>
            rw [hw] at h
            simp only [Except.error.injEq] at h
            subst h
            exact extract_wave_ne_emptyBatch _ _ _ hw
          | ok w => rw [hw] at h; simp at h
      | array1d vals =>
        dsimp only at h
        simp only [Except.error.injEq] at h
        subst h
        simp
      | table cols =>
        dsimp only at h
        simp only [Except.error.injEq] at h
        subst h
        simp
    · rw [if_neg h25] at h
      by_cases h2 : hdu.header.naxis = some 2
      · rw [if_pos h2] at h
        cases d with
        | image rows =>
          dsimp only at h
          simp only [Except.error.injEq] at h
          subst h
          simp
        | array1d vals =>
          dsimp only at h
          simp only [Except.error.injEq] at h
          subst h
          simp
        | table cols =>
          dsimp only at h
          cases hwc : (match alookup cols "spectral" with
              | some w => some w
              | none => alookup cols "wave") with
          | none =>
            rw [hwc] at h
            simp only [Except.error.injEq] at h
            subst h
            simp
          | some wave =>
            rw [hwc] at h
            dsimp only at h
            cases hfc : alookup cols "flux" with
            | none =>
              rw [hfc] at h
              simp only [Except.error.injEq] at h
              subst h
              simp
            | some flux => rw [hfc] at h; simp at h
      · rw [if_neg h2] at h
        by_cases h1 : hdu.header.naxis = some 1
        · rw [if_pos h1] at h
          cases d with
          | image rows =>
            dsimp only at h
            simp only [Except.error.injEq] at h
            subst h
            simp
          | table cols =>
            dsimp only at h
            simp only [Except.error.injEq] at h
            subst h
            simp
          | array1d vals =>
            dsimp only at h
            cases hw : FitsPlotter._extract_wave hdu.header vals with
            | error e2 =>
              rw [hw] at h
              simp only [Except.error.injEq] at h
              subst h
              exact extract_wave_ne_emptyBatch _ _ _ hw
            | ok w => rw [hw] at h; simp at h
        · rw [if_neg h1] at h; simp at h

/-- A failing block loop never raises the empty-batch error. -/
theorem runHdus_ne_emptyBatch :
    ∀ (l : List HDU) (st : FitsPlotter.ParseState) (e : Err),
    FitsPlotter.runHdus st l = .error e → e ≠ .emptyBatch := by
  intro l
  induction l with
  | nil => intro st e h; simp [FitsPlotter.runHdus] at h
  | cons hd t ih =>
    intro st e h
    simp only [FitsPlotter.runHdus] at h
    cases hp : FitsPlotter.parseHdu st hd with
    | error e2 =>
      rw [hp] at h
      simp only [Except.error.injEq] at h
      subst h
      exact parseHdu_ne_emptyBatch st hd _ hp
    | ok st' => rw [hp] at h; exact ih st' e h

/-- A failing tabular-binary decode never raises the empty-batch error. -/
theorem fitsParse_ne_emptyBatch (hdus : List HDU) (e : Err)
    (h : FitsPlotter._parse_spectrum_file hdus = .error e) : e ≠ .emptyBatch := by
  unfold FitsPlotter._parse_spectrum_file at h
  cases hr : FitsPlotter.runHdus FitsPlotter.initState hdus with
  | error e2 =>
    rw [hr] at h
    simp only [Except.error.injEq] at h
    subst h
    exact runHdus_ne_emptyBatch hdus FitsPlotter.initState _ hr
  | ok st =>
    rw [hr] at h
    dsimp only at h
    repeat' split at h
    all_goals try (simp only [Except.error.injEq] at h; subst h; simp)
    all_goals simp at h

/-- A failing votable decode never raises the empty-batch error. -/
theorem votParse_ne_emptyBatch (c : FileContent) (e : Err)
    (h : VotPlotter._parse_spectrum_file c = .error e) : e ≠ .emptyBatch := by
  unfold VotPlotter._parse_spectrum_file at h
  repeat' split at h
  all_goals try (simp only [Except.error.injEq] at h; subst h; simp)
  all_goals simp at h

/-- A failing decode-and-plot step never raises the empty-batch error. -/
theorem plotOne_ne_emptyBatch (env : Env) (mw : Option (List ℚ)) (axes : Axes)
    (f : String × String) (e : Err) (h : plotOne env mw axes f = .error e) :
    e ≠ .emptyBatch := by
  unfold plotOne at h
  cases hdf : detectFormat f.1 with
  | error e2 =>
    rw [hdf] at h
    simp only [Except.error.injEq] at h
    subst h
    exact detectFormat_ne_emptyBatch f.1 _ hdf
  | ok pl =>
    rw [hdf] at h
    dsimp only at h
    cases hgc : getContent env f.2 with
    | error e2 =>
      rw [hgc] at h
      simp only [Except.error.injEq] at h
      subst h
      exact getContent_ne_emptyBatch env f.2 _ hgc
    | ok c =>
      rw [hgc] at h
      dsimp only at h
      cases pl with
      | fits =>
        cases c with
        | fits hdus =>
          dsimp only at h
          cases hp : FitsPlotter._parse_spectrum_file hdus with
          | error e2 =>
            rw [hp] at h
            simp only [Except.error.injEq] at h
            subst h
            exact fitsParse_ne_emptyBatch hdus _ hp
          | ok parsed => rw [hp] at h; simp at h
        | vot tables => simp only [Except.error.injEq] at h; subst h; simp
        | text lines => simp only [Except.error.injEq] at h; subst h; simp
        | garbage => simp only [Except.error.injEq] at h; subst h; simp
      | vot =>
        dsimp only at h
        cases hp : VotPlotter._parse_spectrum_file c with
        | error e2 =>
          rw [hp] at h
          simp only [Except.error.injEq] at h
          subst h
          exact votParse_ne_emptyBatch c _ hp
        | ok parsed => rw [hp] at h; simp at h
      | csv =>
        cases c with
        | fits hdus => simp only [Except.error.injEq] at h; subst h; simp
        | vot tables => simp only [Except.error.injEq] at h; subst h; simp
        | garbage => simp only [Except.error.injEq] at h; subst h; simp
        | text lines => simp at h

/-- A failing decode loop never raises the empty-batch error. -/
theorem plotAll_ne_emptyBatch (env : Env) (mw : Option (List ℚ)) :
    ∀ (files : List (String × String)) (axes : Axes) (e : Err),
    plotAll env mw axes files = .error e → e ≠ .emptyBatch := by
  intro files
  induction files with
  | nil => intro axes e h; simp [plotAll] at h
  | cons f t ih =>
    intro axes e h
    simp only [plotAll] at h
    cases hp : plotOne env mw axes f with
    | error e2 =>
      rw [hp] at h
      simp only [Except.error.injEq] at h
      subst h
      exact plotOne_ne_emptyBatch env mw axes f _ hp
    | ok ax' => rw [hp] at h; exact ih ax' e h

/-- C6: `plot_spectra` fails with the empty-batch error in exactly two
situations, both before any curve is produced: an empty input list, or a
resolution scan that leaves no candidate spectrum files after the
`meta.xml` entries have been separated out (so a batch consisting only of
`meta.xml` fails). -/
theorem empty_batch_conditions :
    (∀ env axes location, plot_spectra env axes [] location = .error .emptyBatch) ∧
    (∀ env axes location root file_list mw,
      locationRoot env location = .ok root →
      metaScan env root file_list none [] = .ok (mw, []) →
      plot_spectra env axes file_list location = .error .emptyBatch) ∧
    (∀ env axes location file_list,
      plot_spectra env axes file_list location = .error .emptyBatch →
      file_list = [] ∨ ∃ root mw, locationRoot env location = .ok root ∧
        metaScan env root file_list none [] = .ok (mw, [])) := by
  refine ⟨?_, ?_, ?_⟩
  · intro env axes loc
    simp [plot_spectra]
  · intro env axes loc root list mw hloc hms
    by_cases h0 : list.length = 0
    · unfold plot_spectra
      rw [if_pos h0]
    · unfold plot_spectra
      rw [if_neg h0, hloc]
      dsimp only
      rw [hms]
      dsimp only
      simp
  · intro env axes loc list h
    by_cases h0 : list.length = 0
    · left
      exact List.length_eq_zero.mp h0
    · right
      unfold plot_spectra at h
      rw [if_neg h0] at h
      cases hloc : locationRoot env loc with
      | error e2 =>
        rw [hloc] at h
        simp only [Except.error.injEq] at h
        exact absurd h (locationRoot_ne_emptyBatch env loc _ hloc)
      | ok root =>
        rw [hloc] at h
        dsimp only at h
        cases hms : metaScan env root list none [] with
        | error e2 =>
          rw [hms] at h
          simp only [Except.error.injEq] at h
          exact absurd h (metaScan_ne_emptyBatch env root list none [] _ hms)
        | ok r =>
          obtain ⟨mw, files⟩ := r
          rw [hms] at h
          dsimp only at h
          by_cases hlen : files.length = 0
          · refine ⟨root, mw, rfl, ?_⟩
            rw [hms, List.length_eq_zero.mp hlen]
          · rw [if_neg hlen] at h
            exact absurd h (fun hh =>
              plotAll_ne_emptyBatch env mw files axes _ hh rfl)

/-- Witness for C6: a batch consisting only of `meta.xml` fails with the
empty-batch error. -/
theorem empty_batch_conditions_witness :
    plot_spectra ⟨"/r", "/j", [("/r/meta.xml", .garbage)]⟩ ⟨[], 0⟩
        ["meta.xml"] "filesystem" = .error .emptyBatch := by
  exact empty_batch_conditions.2.1 ⟨"/r", "/j", [("/r/meta.xml", .garbage)]⟩ ⟨[], 0⟩
    "filesystem" "/r" ["meta.xml"] none (by decide) (by decide)

/-! ## Claim C7: meta-wave loader failures are absorbed -/

/-- Every curve produced by the csv plotter without a meta wave is plotted
against its own index. -/
theorem rowsCurves_x_none (fname : String) (names : Bool) (d : Char) :
    ∀ (rows : List (List Char)) (counter : ℕ) (curve : Curve),
    curve ∈ CsvPlotter.rowsCurves fname none names d counter rows →
    curve.x = none := by
  intro rows
  induction rows with
  | nil => intro counter curve hc; simp [CsvPlotter.rowsCurves] at hc
  | cons line rest ih =>
    intro counter curve hc
    simp only [CsvPlotter.rowsCurves, List.mem_cons] at hc
    rcases hc with hc | hc
    · subst hc
      cases names <;> simp
    · exact ih _ curve hc

/-- C7: a `meta.xml` entry whose extraction fails (any unparseable
document, missing `intensities` field or empty column makes
`extract_meta_file` return `none`) never aborts the batch: the scan simply
continues over the remaining entries with no meta wave, and every csv row
plotted without a meta wave is plotted against its own index
(`x = none`). -/
theorem meta_failure_absorbed :
    (∀ (env : Env) (root p : String) (rest : List String)
      (mw0 : Option (List ℚ)) (acc : List (String × String)) (ap : String)
      (c : FileContent),
      path_mapper root p = .ok ("meta.xml", ap) →
      alookup env.fs ap = some c →
      extract_meta_file c = none →
      metaScan env root (p :: rest) mw0 acc = metaScan env root rest none acc) ∧
    (∀ (axes : Axes) (fname : String) (lines : List String) (curve : Curve),
      curve ∈ (CsvPlotter.plot axes fname lines none).curves →
      curve ∈ axes.curves ∨ curve.x = none) := by
  constructor
  · intro env root p rest mw0 acc ap c hp hfs hext
    simp only [metaScan, resolveEntry]
    rw [hp]
    dsimp only
    rw [hfs]
    dsimp only
    rw [if_pos rfl, hext]
  · intro axes fname lines curve hc
    rw [CsvPlotter.plot, csvRows_eq] at hc
    simp only [List.mem_append] at hc
    rcases hc with hc | hc
    · exact Or.inl hc
    · exact Or.inr (rowsCurves_x_none fname _ _ (lines.map String.data) 0 curve
        (by simpa using hc))

/-- Witness for C7: an unparseable `meta.xml` leaves the scan running with
no meta wave, and a csv row plotted without a meta wave has no x-series. -/
theorem meta_failure_absorbed_witness :
    metaScan ⟨"/r", "/j", [("/r/meta.xml", .garbage), ("/r/a.csv", .text ["1,2"])]⟩ "/r"
        ["meta.xml", "a.csv"] none [] =
      metaScan ⟨"/r", "/j", [("/r/meta.xml", .garbage), ("/r/a.csv", .text ["1,2"])]⟩ "/r"
        ["a.csv"] none [] ∧
    (⟨none, Series.strs ["1", "2"], "a.csv: #0"⟩ : Curve).x = none := by
  constructor
  · exact meta_failure_absorbed.1
      ⟨"/r", "/j", [("/r/meta.xml", .garbage), ("/r/a.csv", .text ["1,2"])]⟩
      "/r" "meta.xml" ["a.csv"] none [] "/r/meta.xml" .garbage
      (by decide) (by decide) (by decide)
  · rcases meta_failure_absorbed.2 ⟨[], 0⟩ "a.csv" ["1,2"]
      ⟨none, Series.strs ["1", "2"], "a.csv: #0"⟩ (by decide) with hmem | hx
    · simp at hmem
    · exact hx

/-! ## Claim C10: several `meta.xml` entries — last extraction wins,
none is decoded as a spectrum -/

/-- The scan never puts an entry whose display name is `meta.xml` into the
candidate list (given the accumulator is clean). -/
theorem metaScan_no_meta_candidate (env : Env) (root : String) :
    ∀ (l : List String) (mw : Option (List ℚ)) (acc : List (String × String))
      (res : Option (List ℚ) × List (String × String)),
    metaScan env root l mw acc = .ok res →
    (∀ f ∈ acc, f.1 ≠ "meta.xml") →
    ∀ f ∈ res.2, f.1 ≠ "meta.xml" := by
  intro l
  induction l with
  | nil =>
    intro mw acc res h hacc
    simp only [metaScan, Except.ok.injEq] at h
    subst h
    exact hacc
  | cons p t ih =>
    intro mw acc res h hacc
    simp only [metaScan] at h
    cases hp : resolveEntry env root p with
    | error e => rw [hp] at h; simp at h
    | ok r =>
      rw [hp] at h
      dsimp only at h
      split at h
      · exact ih _ _ _ h hacc
      · refine ih _ _ _ h ?_
        intro f hf
        rcases List.mem_append.mp hf with hf | hf
        · exact hacc f hf
        · simp only [List.mem_singleton] at hf
          subst hf
          simpa using ‹¬r.1 = "meta.xml"›

/-- If no remaining entry resolves to the name `meta.xml`, the scan keeps
its current meta wave. -/
theorem metaScan_keeps_mw (env : Env) (root : String) :
    ∀ (l : List String) (mw : Option (List ℚ)) (acc : List (String × String))
      (res : Option (List ℚ) × List (String × String)),
    metaScan env root l mw acc = .ok res →
    (∀ q ∈ l, ∀ r, resolveEntry env root q = .ok r → r.1 ≠ "meta.xml") →
    res.1 = mw := by
  intro l
  induction l with
  | nil =>
    intro mw acc res h _
    simp only [metaScan, Except.ok.injEq] at h
    subst h
    rfl
  | cons p t ih =>
    intro mw acc res h hl
    simp only [metaScan] at h
    cases hp : resolveEntry env root p with
    | error e => rw [hp] at h; simp at h
    | ok r =>
      rw [hp] at h
      dsimp only at h
      split at h
      · exact absurd ‹r.1 = "meta.xml"› (hl p (by simp) r hp)
      · exact ih _ _ _ h (fun q hq => hl q (by simp [hq]))

/-- Stepping the scan over a resolvable leading segment reaches the tail
with some intermediate state. -/
theorem metaScan_reaches_suffix (env : Env) (root : String) :
    ∀ (pre rest : List String) (mw : Option (List ℚ)) (acc : List (String × String))
      (res : Option (List ℚ) × List (String × String)),
    metaScan env root (pre ++ rest) mw acc = .ok res →
    ∃ mw2 acc2, metaScan env root rest mw2 acc2 = .ok res := by
  intro pre
  induction pre with
  | nil => intro rest mw acc res h; exact ⟨mw, acc, h⟩
  | cons p t ih =>
    intro rest mw acc res h
    simp only [List.cons_append, metaScan] at h
    cases hp : resolveEntry env root p with
    | error e => rw [hp] at h; simp at h
    | ok r =>
      rw [hp] at h
      dsimp only at h
      split at h
      · exact ih rest _ _ res h
      · exact ih rest _ _ res h

/-- C10: when a batch contains several entries resolving to the name
`meta.xml`, none of them ever becomes a candidate spectrum file (so none
is decoded), and the meta wave produced by the scan is the one extracted
from the LAST such entry — every earlier extraction is overwritten. -/
theorem multiple_meta_entries (env : Env) (root : String) (pre post : List String)
    (p ap : String) (c : FileContent) (mw : Option (List ℚ))
    (files : List (String × String))
    (hscan : metaScan env root (pre ++ p :: post) none [] = .ok (mw, files))
    (hp : path_mapper root p = .ok ("meta.xml", ap))
    (hc : alookup env.fs ap = some c)
    (hpost : ∀ q ∈ post, ∀ r, resolveEntry env root q = .ok r → r.1 ≠ "meta.xml") :
    mw = extract_meta_file c ∧ ∀ f ∈ files, f.1 ≠ "meta.xml" := by
  constructor
  · obtain ⟨mw2, acc2, h2⟩ := metaScan_reaches_suffix env root pre (p :: post) none [] (mw, files) hscan
    have hres : resolveEntry env root p = .ok ("meta.xml", ap, c) := by
      unfold resolveEntry
      rw [hp]
      dsimp only
      rw [hc]
    simp only [metaScan] at h2
    rw [hres] at h2
    dsimp only at h2
    rw [if_pos rfl] at h2
    exact metaScan_keeps_mw env root post (extract_meta_file c) acc2 (mw, files) h2 hpost
  · exact metaScan_no_meta_candidate env root (pre ++ p :: post) none [] (mw, files)
      hscan (by simp)

/-- Witness for C10: two `meta.xml` entries; the first extracts a valid
grid, the last is garbage, and the batch's meta wave is the LAST one's
result (`none`), while the only candidate is the csv file. -/
theorem multiple_meta_entries_witness :
    (none : Option (List ℚ)) = extract_meta_file .garbage ∧
    ∀ f ∈ [("a.csv", "/r/a.csv")], (f : String × String).1 ≠ "meta.xml" := by
  have h := multiple_meta_entries
    ⟨"/r", "/j",
      [("/r/m1/meta.xml", .vot [⟨[("intensities", [[1, 2]])], none⟩]),
       ("/r/m2/meta.xml", .garbage),
       ("/r/a.csv", .text ["1,2"])]⟩
    "/r" ["m1/meta.xml", "a.csv"] [] "m2/meta.xml" "/r/m2/meta.xml" .garbage
    none [("a.csv", "/r/a.csv")]
    (by decide) (by decide) (by decide)
    (by intro q hq; simp at hq)
  exact h

end SpectraViewer
